import Mathlib

/-!
Shallow embedding of the hydrogen-restock waitlist client core:
validation/sanitization utilities, the availability classifier, the
`useWaitlist` join/leave/reset state machine, and the `useWaitlistCount`
fetch-with-cache logic, with theorems checking the specification's claims.

Strings are modelled through their character lists; the JavaScript `\s`
character class is restricted to its ASCII fragment, which covers every
input the claims mention.
-/

namespace Restock

/-- ASCII fragment of the JavaScript whitespace class `\s`. -/
def jsSpace (c : Char) : Bool :=
  c = ' ' || c = '\t' || c = '\n' || c = '\r' || c = '\x0b' || c = '\x0c'

/-- Model of `String.prototype.trim`: drop leading and trailing whitespace. -/
def trimList (cs : List Char) : List Char :=
  ((cs.dropWhile jsSpace).reverse.dropWhile jsSpace).reverse

/-- Characters admitted by the regex character class `[^\s@]`. -/
def isEmailChar (c : Char) : Bool :=
  !jsSpace c && c ≠ '@'

/-- Whether the character list has a `'.'` at an inner position
(neither first nor last): the `[^\s@]+\.[^\s@]+` part of the regex
applied after the `@`. -/
def dotInner (cs : List Char) : Bool :=
  ((cs.drop 1).dropLast).contains '.'

/-- Matching of the regex `^[^\s@]+@[^\s@]+\.[^\s@]+$` against a
character list: a nonempty `@`-free, space-free local part, one `@`,
then a nonempty `@`-free, space-free domain part containing an inner dot. -/
def emailShape (cs : List Char) : Bool :=
  match cs.span (fun c => c ≠ '@') with
  | (localPart, '@' :: domainPart) =>
    localPart ≠ [] && localPart.all isEmailChar &&
    domainPart ≠ [] && domainPart.all isEmailChar && dotInner domainPart
  | _ => false

/-- Embedding of `isValidEmail` from src/utils/validation.ts: false on the empty
string, otherwise regex-match the trimmed input. -/
def isValidEmail (email : String) : Bool :=
  if email = "" then false
  else emailShape (trimList email.data)

/-- Embedding of `sanitizeInput` from src/utils/validation.ts: empty on falsy input,
otherwise trim, strip all `<` and `>`, truncate to 500 characters. -/
def sanitizeInput (input : String) : String :=
  if input = "" then ""
  else String.mk (((trimList input.data).filter (fun c => c ≠ '<' && c ≠ '>')).take 500)

/-- The trailing run of digits of a character list. -/
def trailingDigits (cs : List Char) : List Char :=
  (cs.reverse.takeWhile Char.isDigit).reverse

/-- The characters before the trailing digit run. -/
def beforeTrailing (cs : List Char) : List Char :=
  cs.take (cs.length - (trailingDigits cs).length)

/-- Embedding of `extractNumericId` from src/utils/validation.ts: the regex
`\/(\d+)$` matches exactly when the string ends in a nonempty digit run
preceded by `/`, and captures that run; on a match return the capture,
otherwise the input unchanged; empty string on falsy input. -/
def extractNumericId (gid : String) : String :=
  if gid = "" then ""
  else if trailingDigits gid.data ≠ [] ∧ (beforeTrailing gid.data).getLast? = some '/' then
    String.mk (trailingDigits gid.data)
  else gid

/-- ASCII lowercasing, the fragment of `String.prototype.toLowerCase`
exercised here. -/
def toLowerStr (s : String) : String :=
  String.mk (s.data.map Char.toLower)

/-- The `DEFAULT_ERROR_MESSAGES` table from src/utils/constants.ts. -/
structure ErrorMessages where
  invalidEmail : String
  alreadyJoined : String
  notOnWaitlist : String
  network : String
  rateLimited : String
  unknown : String
deriving DecidableEq

def DEFAULT_ERROR_MESSAGES : ErrorMessages where
  invalidEmail := "Please enter a valid email address."
  alreadyJoined := "You are already on the waitlist for this product."
  notOnWaitlist := "You are not on the waitlist for this product."
  network := "Network error. Please try again."
  rateLimited := "Too many requests. Please try again later."
  unknown := "An unexpected error occurred."

/-- The `DEFAULT_SUCCESS_MESSAGES` table from src/utils/constants.ts. -/
structure SuccessMessages where
  joined : String
  left : String
deriving DecidableEq

def DEFAULT_SUCCESS_MESSAGES : SuccessMessages where
  joined := "You've been added to the waitlist. We'll email you when it's back in stock."
  left := "You've been removed from the waitlist."

/-- The fields of `VariantInfo` read by the availability classifier. -/
structure VariantInfo where
  availableForSale : Bool
  quantityAvailable : Option Int
deriving DecidableEq

inductive AvailabilityStatus where
  | available
  | out_of_stock
  | preorder
deriving DecidableEq

/-- The record returned by `useVariantAvailability`. -/
structure AvailabilityResult where
  status : AvailabilityStatus
  isAvailable : Bool
  isOutOfStock : Bool
  isLowStock : Bool
  showNotifyMe : Bool
  quantityAvailable : Option Int
deriving DecidableEq

/-- Embedding of `useVariantAvailability` from src/hooks/useVariantAvailability.ts
(the memoized body, a pure function of the variant and the threshold). -/
def useVariantAvailability (variant : Option VariantInfo) (lowStockThreshold : Int) :
    AvailabilityResult :=
  match variant with
  | none =>
    { status := .out_of_stock
      isAvailable := false
      isOutOfStock := true
      isLowStock := false
      showNotifyMe := false
      quantityAvailable := none }
  | some v =>
    let status : AvailabilityStatus :=
      if !v.availableForSale then .out_of_stock
      else if v.quantityAvailable = some 0 then .preorder
      else .available
    let isOutOfStock := !v.availableForSale
    let isLowStock :=
      v.availableForSale &&
        (match v.quantityAvailable with
         | some q => decide (0 < q) && decide (q ≤ lowStockThreshold)
         | none => false)
    { status := status
      isAvailable := v.availableForSale
      isOutOfStock := isOutOfStock
      isLowStock := isLowStock
      showNotifyMe := isOutOfStock
      quantityAvailable := v.quantityAvailable }

example : isValidEmail "user@example.com" = true := by decide
example : isValidEmail "user+tag@domain.co" = true := by decide
example : isValidEmail "  user@example.com  " = true := by decide
example : isValidEmail "user@" = false := by decide
example : isValidEmail "user@domain" = false := by decide
example : isValidEmail "user @example.com" = false := by decide
example : isValidEmail "" = false := by decide
example : sanitizeInput "  <b>hi</b>  " = "bhi/b" := by decide
example : extractNumericId "gid://shopify/ProductVariant/987654321" = "987654321" := by decide
example : extractNumericId "123456789" = "123456789" := by decide
example : extractNumericId "" = "" := by decide

/-! ### The `useWaitlist` join/leave/reset state machine -/

/-- State record `WaitlistState`: the six state fields of a `useWaitlist` instance. -/
structure WaitlistState where
  email : String
  isJoining : Bool
  isLeaving : Bool
  isJoined : Bool
  error : Option String
  successMessage : Option String
deriving DecidableEq

/-- Initial hook state: `useState('')` / `useState(false)` / `useState()`. -/
def initState : WaitlistState :=
  { email := ""
    isJoining := false
    isLeaving := false
    isJoined := false
    error := none
    successMessage := none }

/-- The parsed JSON body of a join/leave response:
`{success, message?, error?}` (the fields the hook reads). -/
structure ApiBody where
  success : Bool
  message : Option String
  error : Option String
deriving DecidableEq

/-- Environment outcome of the network phase of a join/leave call:
either `fetch` rejected (no response), or a response with an HTTP
status arrived and `res.json()` either parsed to a body or threw. -/
inductive FetchResult where
  | noResponse
  | resp (status : Nat) (body : Option ApiBody)
deriving DecidableEq

/-- Model of `res.ok`: HTTP status in the 2xx range. -/
def resOk (status : Nat) : Bool :=
  200 ≤ status && status < 300

/-- One React state-setter call. -/
inductive SetOp where
  | sEmail (v : String)
  | sJoining (b : Bool)
  | sLeaving (b : Bool)
  | sJoined (b : Bool)
  | sError (v : Option String)
  | sSuccess (v : Option String)
deriving DecidableEq

/-- Apply a single setter call to the state. -/
def applySet (st : WaitlistState) : SetOp → WaitlistState
  | .sEmail v => { st with email := v }
  | .sJoining b => { st with isJoining := b }
  | .sLeaving b => { st with isLeaving := b }
  | .sJoined b => { st with isJoined := b }
  | .sError v => { st with error := v }
  | .sSuccess v => { st with successMessage := v }

/-- Apply a list of setter calls in order. -/
def applyAll (st : WaitlistState) (sets : List SetOp) : WaitlistState :=
  sets.foldl applySet st

/-- Observable side effects of a join/leave call: the network request
and the caller-supplied callbacks. -/
inductive JEvent where
  | netRequest
  | joinErrorCb (msg : String)
  | joinSuccessCb (body : ApiBody)
  | leaveErrorCb (msg : String)
  | leaveSuccessCb (body : ApiBody)
deriving DecidableEq

/-- A settled join/leave call: the setter calls it performed in order,
the value its promise resolved to, and the events it emitted. -/
structure OpRun where
  sets : List SetOp
  result : ApiBody
  events : List JEvent
deriving DecidableEq

/-- The cleaned email: `sanitizeInput(emailInput).toLowerCase()`. -/
def cleanEmail (emailInput : String) : String :=
  toLowerStr (sanitizeInput emailInput)

/-- Embedding of the `join` operation of `useWaitlist`, as a function of the raw
email input and the network outcome.  Mirrors the source line by line:
validation gate, `setIsJoining(true)`/clear messages, the 429 check
before JSON parsing, the `!res.ok || !result.success` branch returning
the parsed body unchanged, the success branch, the catch-all network
branch, and the `finally` clearing `isJoining`. -/
def joinRun (emailInput : String) (r : FetchResult) : OpRun :=
  if !isValidEmail (cleanEmail emailInput) then
    { sets := [.sError (some DEFAULT_ERROR_MESSAGES.invalidEmail)]
      result := ⟨false, none, some DEFAULT_ERROR_MESSAGES.invalidEmail⟩
      events := [.joinErrorCb DEFAULT_ERROR_MESSAGES.invalidEmail] }
  else
    let pre : List SetOp := [.sJoining true, .sError none, .sSuccess none]
    match r with
    | .noResponse =>
      { sets := pre ++ [.sError (some DEFAULT_ERROR_MESSAGES.network), .sJoining false]
        result := ⟨false, none, some DEFAULT_ERROR_MESSAGES.network⟩
        events := [.netRequest, .joinErrorCb DEFAULT_ERROR_MESSAGES.network] }
    | .resp status body =>
      if status = 429 then
        { sets := pre ++ [.sError (some DEFAULT_ERROR_MESSAGES.rateLimited), .sJoining false]
          result := ⟨false, none, some DEFAULT_ERROR_MESSAGES.rateLimited⟩
          events := [.netRequest, .joinErrorCb DEFAULT_ERROR_MESSAGES.rateLimited] }
      else
        match body with
        | none =>
          { sets := pre ++ [.sError (some DEFAULT_ERROR_MESSAGES.network), .sJoining false]
            result := ⟨false, none, some DEFAULT_ERROR_MESSAGES.network⟩
            events := [.netRequest, .joinErrorCb DEFAULT_ERROR_MESSAGES.network] }
        | some b =>
          if !resOk status || !b.success then
            { sets := pre ++
                [.sError (some (b.error.getD DEFAULT_ERROR_MESSAGES.unknown)), .sJoining false]
              result := b
              events := [.netRequest,
                .joinErrorCb (b.error.getD DEFAULT_ERROR_MESSAGES.unknown)] }
          else
            { sets := pre ++
                [.sJoined true,
                 .sSuccess (some (b.message.getD DEFAULT_SUCCESS_MESSAGES.joined)),
                 .sJoining false]
              result := b
              events := [.netRequest, .joinSuccessCb b] }

/-- Embedding of the `leave` operation of `useWaitlist`: identical shape to `join`
with `isLeaving` instead of `isJoining`, `setIsJoined(false)` on
success, the left-message default, and the leave callbacks. -/
def leaveRun (emailInput : String) (r : FetchResult) : OpRun :=
  if !isValidEmail (cleanEmail emailInput) then
    { sets := [.sError (some DEFAULT_ERROR_MESSAGES.invalidEmail)]
      result := ⟨false, none, some DEFAULT_ERROR_MESSAGES.invalidEmail⟩
      events := [.leaveErrorCb DEFAULT_ERROR_MESSAGES.invalidEmail] }
  else
    let pre : List SetOp := [.sLeaving true, .sError none, .sSuccess none]
    match r with
    | .noResponse =>
      { sets := pre ++ [.sError (some DEFAULT_ERROR_MESSAGES.network), .sLeaving false]
        result := ⟨false, none, some DEFAULT_ERROR_MESSAGES.network⟩
        events := [.netRequest, .leaveErrorCb DEFAULT_ERROR_MESSAGES.network] }
    | .resp status body =>
      if status = 429 then
        { sets := pre ++ [.sError (some DEFAULT_ERROR_MESSAGES.rateLimited), .sLeaving false]
          result := ⟨false, none, some DEFAULT_ERROR_MESSAGES.rateLimited⟩
          events := [.netRequest, .leaveErrorCb DEFAULT_ERROR_MESSAGES.rateLimited] }
      else
        match body with
        | none =>
          { sets := pre ++ [.sError (some DEFAULT_ERROR_MESSAGES.network), .sLeaving false]
            result := ⟨false, none, some DEFAULT_ERROR_MESSAGES.network⟩
            events := [.netRequest, .leaveErrorCb DEFAULT_ERROR_MESSAGES.network] }
        | some b =>
          if !resOk status || !b.success then
            { sets := pre ++
                [.sError (some (b.error.getD DEFAULT_ERROR_MESSAGES.unknown)), .sLeaving false]
              result := b
              events := [.netRequest,
                .leaveErrorCb (b.error.getD DEFAULT_ERROR_MESSAGES.unknown)] }
          else
            { sets := pre ++
                [.sJoined false,
                 .sSuccess (some (b.message.getD DEFAULT_SUCCESS_MESSAGES.left)),
                 .sLeaving false]
              result := b
              events := [.netRequest, .leaveSuccessCb b] }

/-- The setter calls of `reset()`. -/
def resetSets : List SetOp :=
  [.sEmail "", .sJoining false, .sLeaving false, .sJoined false, .sError none, .sSuccess none]

/-- One user-visible operation on a `useWaitlist` instance, with the
network outcome it observes. -/
inductive Op where
  | opJoin (email : String) (r : FetchResult)
  | opLeave (email : String) (r : FetchResult)
  | opReset
deriving DecidableEq

/-- The setter calls an operation performs. -/
def opSets : Op → List SetOp
  | .opJoin e r => (joinRun e r).sets
  | .opLeave e r => (leaveRun e r).sets
  | .opReset => resetSets

/-- The settled state after running one operation to completion. -/
def stepOp (st : WaitlistState) (o : Op) : WaitlistState :=
  applyAll st (opSets o)

/-- All states an operation passes through, the starting state included. -/
def statesFrom (st : WaitlistState) : List SetOp → List WaitlistState
  | [] => [st]
  | s :: rest => st :: statesFrom (applySet st s) rest

/-- All states a sequential run of the operations passes through,
micro-states inside each operation included. -/
def traceStates (st : WaitlistState) : List Op → List WaitlistState
  | [] => [st]
  | o :: rest => statesFrom st (opSets o) ++ traceStates (stepOp st o) rest

/-- The in-flight flags are not both set. -/
def notBoth (s : WaitlistState) : Bool :=
  !(s.isJoining && s.isLeaving)

/-- A network outcome counting as a successful join/leave response:
a 2xx status whose parsed body has `success:true`. -/
def isSuccessResp : FetchResult → Bool
  | .resp status (some b) => resOk status && b.success
  | _ => false

/-- The claimed condition on an `isJoined` change across one settled
operation: to true only by a join with a successful response, to false
only by a leave with a successful response. -/
def flipOkStated (o : Op) (s s' : WaitlistState) : Prop :=
  (s.isJoined = false ∧ s'.isJoined = true →
    ∃ e r, o = .opJoin e r ∧ isSuccessResp r = true) ∧
  (s.isJoined = true ∧ s'.isJoined = false →
    ∃ e r, o = .opLeave e r ∧ isSuccessResp r = true)

/-- The amended condition: `reset` may also clear `isJoined`. -/
def flipOkAmended (o : Op) (s s' : WaitlistState) : Prop :=
  (s.isJoined = false ∧ s'.isJoined = true →
    ∃ e r, o = .opJoin e r ∧ isSuccessResp r = true) ∧
  (s.isJoined = true ∧ s'.isJoined = false →
    (∃ e r, o = .opLeave e r ∧ isSuccessResp r = true) ∨ o = .opReset)

/-- Every consecutive settled pair along an operation sequence
satisfies the given condition. -/
def FlipsOk (P : Op → WaitlistState → WaitlistState → Prop) :
    WaitlistState → List Op → Prop
  | _, [] => True
  | st, o :: rest => P o st (stepOp st o) ∧ FlipsOk P (stepOp st o) rest

/-! ### The `useWaitlistCount` fetch-with-cache logic -/

/-- A count-cache entry: `{count, timestamp}`. -/
structure CacheEntry where
  count : Int
  timestamp : Int
deriving DecidableEq

/-- The process-wide `countCache` map, as an association list whose
first binding for a key wins. -/
def Cache : Type := List (String × CacheEntry)

/-- Model of `Map.prototype.get`. -/
def cacheGet (c : Cache) (k : String) : Option CacheEntry :=
  (List.find? (fun p => p.1 = k) c).map (fun p => p.2)

/-- Model of `Map.prototype.delete`: remove every binding of the key. -/
def cacheDel (c : Cache) (k : String) : Cache :=
  List.filter (fun p => p.1 ≠ k) c

/-- Model of `Map.prototype.set`: bind the key, shadowing any old binding. -/
def cacheSet (c : Cache) (k : String) (v : CacheEntry) : Cache :=
  (k, v) :: cacheDel c k

/-- A thrown JavaScript value as seen by a catch handler: whether it is
an `Error`, and its message when it is. -/
structure JsError where
  isError : Bool
  message : String
deriving DecidableEq

/-- The catch handler of `fetchCount`:
`err instanceof Error ? err.message : 'Failed to fetch count'`. -/
def countErrMsg (e : JsError) : String :=
  if e.isError then e.message else "Failed to fetch count"

/-- The parsed JSON body of a count response. -/
structure CountBody where
  variantId : String
  count : Int
deriving DecidableEq

/-- Environment outcome of the network phase of `fetchCount`: the
`fetch` call rejected, or a response arrived and (when its body is
read) `res.json()` parsed or threw. -/
inductive CountOutcome where
  | fetchThrew (e : JsError)
  | resp (status : Nat) (body : Except JsError CountBody)

/-- The hook-state fields of `useWaitlistCount`. -/
structure CountState where
  count : Int
  isLoading : Bool
  error : Option String
deriving DecidableEq

/-- A settled `fetchCount` call: final hook state, final cache, and
whether a network request was issued. -/
structure CountRun where
  state : CountState
  cache : Cache
  requested : Bool

/-- The count-cache key: `` `${config.shopDomain}:${numericId}` ``. -/
def countCacheKey (shopDomain variantId : String) : String :=
  shopDomain ++ ":" ++ extractNumericId variantId

/-- The network phase of `fetchCount` (the body after the cache check):
set loading, clear the error, fetch, then the 404 / non-OK / success /
catch branches, with `finally` clearing the loading flag. -/
def fetchCountNet (cacheKey : String) (st : CountState) (cache : Cache) (now : Int)
    (r : CountOutcome) : CountRun :=
  let st1 : CountState := { st with isLoading := true, error := none }
  match r with
  | .fetchThrew e =>
    { state := { st1 with error := some (countErrMsg e), count := 0, isLoading := false }
      cache := cache
      requested := true }
  | .resp status body =>
    if !resOk status then
      if status = 404 then
        { state := { st1 with count := 0, isLoading := false }
          cache := cacheSet cache cacheKey ⟨0, now⟩
          requested := true }
      else
        { state := { st1 with
              error := some "Failed to fetch waitlist count"
              count := 0
              isLoading := false }
          cache := cache
          requested := true }
    else
      match body with
      | .ok b =>
        { state := { st1 with count := b.count, isLoading := false }
          cache := cacheSet cache cacheKey ⟨b.count, now⟩
          requested := true }
      | .error e =>
        { state := { st1 with error := some (countErrMsg e), count := 0, isLoading := false }
          cache := cache
          requested := true }

/-- Embedding of `fetchCount` from the `useWaitlistCount` hook, as a function of the
variant ID, the shop domain, the cache duration, the current hook state
and cache, the clock, and the network outcome. -/
def fetchCount (variantId shopDomain : String) (cacheDuration : Int) (st : CountState)
    (cache : Cache) (now : Int) (r : CountOutcome) : CountRun :=
  let cacheKey := countCacheKey shopDomain variantId
  match cacheGet cache cacheKey with
  | some cached =>
    if now - cached.timestamp < cacheDuration then
      { state := { st with count := cached.count }, cache := cache, requested := false }
    else
      fetchCountNet cacheKey st cache now r
  | none => fetchCountNet cacheKey st cache now r

/-- Embedding of `refetch` from the `useWaitlistCount` hook: delete the cache entry
for the key, then run `fetchCount`. -/
def refetch (variantId shopDomain : String) (cacheDuration : Int) (st : CountState)
    (cache : Cache) (now : Int) (r : CountOutcome) : CountRun :=
  fetchCount variantId shopDomain cacheDuration st
    (cacheDel cache (countCacheKey shopDomain variantId)) now r

/-! ### Theorems -/

/-- C8: for a present variant, the classifier yields `out_of_stock`
exactly when not available-for-sale, `preorder` exactly when
available-for-sale with `quantityAvailable === 0`, `available`
otherwise; `isLowStock` holds exactly when available-for-sale with a
defined quantity in `(0, threshold]`; `showNotifyMe` equals
`isOutOfStock`; and an absent variant yields `out_of_stock` with
`showNotifyMe = false`. -/
theorem c8_availability_classifier (v : VariantInfo) (t : Int) :
    ((useVariantAvailability (some v) t).status = .out_of_stock ↔
      v.availableForSale = false) ∧
    ((useVariantAvailability (some v) t).status = .preorder ↔
      v.availableForSale = true ∧ v.quantityAvailable = some 0) ∧
    ((useVariantAvailability (some v) t).status = .available ↔
      v.availableForSale = true ∧ v.quantityAvailable ≠ some 0) ∧
    ((useVariantAvailability (some v) t).isLowStock = true ↔
      v.availableForSale = true ∧
        ∃ q, v.quantityAvailable = some q ∧ 0 < q ∧ q ≤ t) ∧
    (useVariantAvailability (some v) t).showNotifyMe =
      (useVariantAvailability (some v) t).isOutOfStock ∧
    (useVariantAvailability (some v) t).isOutOfStock = !v.availableForSale ∧
    useVariantAvailability none t =
      ⟨.out_of_stock, false, true, false, false, none⟩ := by
  obtain ⟨afs, qty⟩ := v
  cases afs <;> rcases qty with _ | q
  · simp [useVariantAvailability]
  · simp [useVariantAvailability]
  · simp [useVariantAvailability]
  · rcases eq_or_ne q 0 with rfl | hq
    · simp [useVariantAvailability]
    · simp [useVariantAvailability, hq]

/-- C3: when the sanitized, lowercased email fails `isValidEmail`,
`join` emits only the join-error callback with the invalid-email
message (in particular no network request), resolves to
`{success:false, error}`, and the state change is exactly setting
`error` to that message. -/
theorem c3_invalid_email_join (e : String) (st : WaitlistState) (r : FetchResult)
    (h : isValidEmail (cleanEmail e) = false) :
    (joinRun e r).events = [.joinErrorCb DEFAULT_ERROR_MESSAGES.invalidEmail] ∧
    JEvent.netRequest ∉ (joinRun e r).events ∧
    (joinRun e r).result = ⟨false, none, some DEFAULT_ERROR_MESSAGES.invalidEmail⟩ ∧
    applyAll st (joinRun e r).sets =
      { st with error := some DEFAULT_ERROR_MESSAGES.invalidEmail } := by
  simp [joinRun, h, applyAll, applySet]

/-- C3 witness at a concrete invalid email. -/
theorem c3_invalid_email_join_witness :
    isValidEmail (cleanEmail "not-an-email") = false ∧
    JEvent.netRequest ∉ (joinRun "not-an-email" .noResponse).events := by
  exact ⟨by decide, (c3_invalid_email_join "not-an-email" initState .noResponse (by decide)).2.1⟩

/-- C9: a join or leave whose email fails validation changes no state
field but `error`: the resulting state is exactly the old state with
`error` set to the invalid-email message, so a `successMessage` or
`isJoined` from an earlier success survives alongside the new error. -/
theorem c9_validation_frame (e : String) (st : WaitlistState) (r : FetchResult)
    (h : isValidEmail (cleanEmail e) = false) :
    applyAll st (joinRun e r).sets =
      { st with error := some DEFAULT_ERROR_MESSAGES.invalidEmail } ∧
    applyAll st (leaveRun e r).sets =
      { st with error := some DEFAULT_ERROR_MESSAGES.invalidEmail } := by
  constructor <;> simp [joinRun, leaveRun, h, applyAll, applySet]

/-- C9 witness: after a successful join, an invalid-email attempt
leaves the success message and the joined flag in place while the error
is set, so both messages are present simultaneously. -/
theorem c9_validation_frame_witness :
    ((applyAll
        (applyAll initState (joinRun "user@example.com"
          (.resp 200 (some ⟨true, some "ok", none⟩))).sets)
        (joinRun "bad" .noResponse).sets).successMessage = some "ok" ∧
      (applyAll
        (applyAll initState (joinRun "user@example.com"
          (.resp 200 (some ⟨true, some "ok", none⟩))).sets)
        (joinRun "bad" .noResponse).sets).error =
          some DEFAULT_ERROR_MESSAGES.invalidEmail) := by
  have h := (c9_validation_frame "bad"
    (applyAll initState (joinRun "user@example.com"
      (.resp 200 (some ⟨true, some "ok", none⟩))).sets)
    .noResponse (by decide)).1
  rw [h]
  exact ⟨by decide, rfl⟩

/-- C6: a 429 response to a join or leave request, whatever the body,
sets the rate-limited error message, fires the corresponding error
callback, resolves to `{success:false, error}`, and leaves `isJoined`
unchanged (in particular false stays false). -/
theorem c6_rate_limited (e : String) (st : WaitlistState) (b : Option ApiBody)
    (h : isValidEmail (cleanEmail e) = true) :
    applyAll st (joinRun e (.resp 429 b)).sets =
      { st with isJoining := false, error := some DEFAULT_ERROR_MESSAGES.rateLimited, successMessage := none } ∧
    (applyAll st (joinRun e (.resp 429 b)).sets).isJoined = st.isJoined ∧
    (joinRun e (.resp 429 b)).result =
      ⟨false, none, some DEFAULT_ERROR_MESSAGES.rateLimited⟩ ∧
    JEvent.joinErrorCb DEFAULT_ERROR_MESSAGES.rateLimited ∈ (joinRun e (.resp 429 b)).events ∧
    applyAll st (leaveRun e (.resp 429 b)).sets =
      { st with isLeaving := false, error := some DEFAULT_ERROR_MESSAGES.rateLimited, successMessage := none } ∧
    (applyAll st (leaveRun e (.resp 429 b)).sets).isJoined = st.isJoined ∧
    (leaveRun e (.resp 429 b)).result =
      ⟨false, none, some DEFAULT_ERROR_MESSAGES.rateLimited⟩ ∧
    JEvent.leaveErrorCb DEFAULT_ERROR_MESSAGES.rateLimited ∈ (leaveRun e (.resp 429 b)).events := by
  simp [joinRun, leaveRun, h, applyAll, applySet]

/-- C6 witness at a concrete valid email and a body claiming success. -/
theorem c6_rate_limited_witness :
    isValidEmail (cleanEmail "user@example.com") = true ∧
    (applyAll initState
      (joinRun "user@example.com" (.resp 429 (some ⟨true, some "ok", none⟩))).sets).isJoined
      = initState.isJoined := by
  exact ⟨by decide,
    (c6_rate_limited "user@example.com" initState (some ⟨true, some "ok", none⟩)
      (by decide)).2.1⟩

/-- C7: a join with a valid email whose 2xx response has
`success:true` and `message:"m"` settles with `isJoined = true`,
`isJoining = false` and `successMessage = m`; and from a settled state,
`isJoining` is false again after `join` settles on every exit path. -/
theorem c7_join_success_settles (e m : String) (st : WaitlistState) (s : Nat)
    (err : Option String)
    (h : isValidEmail (cleanEmail e) = true) (hs : resOk s = true) :
    (applyAll st (joinRun e (.resp s (some ⟨true, some m, err⟩))).sets).isJoined = true ∧
    (applyAll st (joinRun e (.resp s (some ⟨true, some m, err⟩))).sets).isJoining = false ∧
    (applyAll st (joinRun e (.resp s (some ⟨true, some m, err⟩))).sets).successMessage
      = some m ∧
    (∀ (e' : String) (r : FetchResult) (st' : WaitlistState), st'.isJoining = false →
      (applyAll st' (joinRun e' r).sets).isJoining = false) := by
  have h429 : s ≠ 429 := by
    intro hc
    rw [hc] at hs
    simp [resOk] at hs
  have hall : ∀ (e' : String) (r : FetchResult) (st' : WaitlistState), st'.isJoining = false →
      (applyAll st' (joinRun e' r).sets).isJoining = false := by
    intro e' r st' hj
    by_cases hv : isValidEmail (cleanEmail e') = true
    · cases r with
      | noResponse => simp [joinRun, hv, applyAll, applySet]
      | resp status body =>
        by_cases hst : status = 429
        · simp [joinRun, hv, hst, applyAll, applySet]
        · cases body with
          | none => simp [joinRun, hv, hst, applyAll, applySet]
          | some b =>
            by_cases hok : (!resOk status || !b.success) = true
            · simp [joinRun, hv, hst, hok, applyAll, applySet]
            · simp [joinRun, hv, hst, hok, applyAll, applySet]
    · simp only [Bool.not_eq_true] at hv
      simp [joinRun, hv, applyAll, applySet, hj]
  refine ⟨?_, ?_, ?_, hall⟩ <;>
    simp [joinRun, h, h429, hs, applyAll, applySet]

/-- C7 witness at a concrete email, response, and state. -/
theorem c7_join_success_settles_witness :
    isValidEmail (cleanEmail "user@example.com") = true ∧ resOk 200 = true ∧
    (applyAll initState
      (joinRun "user@example.com" (.resp 200 (some ⟨true, some "ok", none⟩))).sets).isJoined
      = true ∧
    initState.isJoining = false ∧
    (applyAll initState (joinRun "bad" .noResponse).sets).isJoining = false := by
  have h := c7_join_success_settles "user@example.com" "ok" initState 200 none
    (by decide) (by decide)
  exact ⟨by decide, by decide, h.1, rfl, h.2.2.2 "bad" .noResponse initState rfl⟩

/-- C2 counterexample: the claim that every failure resolves to a
`{success:false, error}` result is false as stated: a non-2xx response
whose body claims `success:true` takes the failure path (the unknown
error message is set and the error callback fires) yet `join` resolves
to the parsed body unchanged, with `success = true` and no `error`. -/
theorem c2_counterexample :
    ¬ (∀ (e : String) (r : FetchResult) (msg : String),
        JEvent.joinErrorCb msg ∈ (joinRun e r).events →
        (joinRun e r).result.success = false ∧ (joinRun e r).result.error ≠ none) := by
  intro hclaim
  have h := hclaim "user@example.com" (.resp 500 (some ⟨true, none, none⟩))
    DEFAULT_ERROR_MESSAGES.unknown (by decide)
  exact absurd h.1 (by decide)

/-- C2 (amended): with a valid email, `join` and `leave` map a parsed
response that is non-2xx or has `success:false`, with no `error` field,
to the unknown error message in state and callback while resolving to
the parsed body unchanged; and they map a missing response or a
malformed JSON body to the network error message, resolving to
`{success:false, error}`.  Every failure resolves rather than
throwing, but only the transport/429/validation paths are guaranteed
the `{success:false, error}` shape. -/
theorem c2_error_mapping (e : String) (st : WaitlistState)
    (h : isValidEmail (cleanEmail e) = true) :
    (∀ (s : Nat) (b : ApiBody), s ≠ 429 → (resOk s = false ∨ b.success = false) →
      b.error = none →
      (applyAll st (joinRun e (.resp s (some b))).sets).error
        = some DEFAULT_ERROR_MESSAGES.unknown ∧
      JEvent.joinErrorCb DEFAULT_ERROR_MESSAGES.unknown ∈ (joinRun e (.resp s (some b))).events ∧
      (joinRun e (.resp s (some b))).result = b ∧
      (applyAll st (leaveRun e (.resp s (some b))).sets).error
        = some DEFAULT_ERROR_MESSAGES.unknown ∧
      JEvent.leaveErrorCb DEFAULT_ERROR_MESSAGES.unknown ∈ (leaveRun e (.resp s (some b))).events ∧
      (leaveRun e (.resp s (some b))).result = b) ∧
    ((applyAll st (joinRun e .noResponse).sets).error = some DEFAULT_ERROR_MESSAGES.network ∧
      (joinRun e .noResponse).result = ⟨false, none, some DEFAULT_ERROR_MESSAGES.network⟩ ∧
      (applyAll st (leaveRun e .noResponse).sets).error = some DEFAULT_ERROR_MESSAGES.network ∧
      (leaveRun e .noResponse).result = ⟨false, none, some DEFAULT_ERROR_MESSAGES.network⟩) ∧
    (∀ s : Nat, s ≠ 429 →
      (applyAll st (joinRun e (.resp s none)).sets).error = some DEFAULT_ERROR_MESSAGES.network ∧
      (joinRun e (.resp s none)).result = ⟨false, none, some DEFAULT_ERROR_MESSAGES.network⟩ ∧
      (applyAll st (leaveRun e (.resp s none)).sets).error = some DEFAULT_ERROR_MESSAGES.network ∧
      (leaveRun e (.resp s none)).result = ⟨false, none, some DEFAULT_ERROR_MESSAGES.network⟩) := by
  refine ⟨?_, ?_, ?_⟩
  · intro s b hs hfail herr
    obtain ⟨bs, bm, be⟩ := b
    simp only at herr
    subst herr
    have hcond : (!resOk s || !bs) = true := by
      rcases hfail with hf | hf <;> simp_all
    simp [joinRun, leaveRun, h, hs, hcond, applyAll, applySet]
  · simp [joinRun, leaveRun, h, applyAll, applySet]
  · intro s hs
    simp [joinRun, leaveRun, h, hs, applyAll, applySet]

/-- C2 witness at a concrete email and a 500 response whose body has
`success:false` and no error field. -/
theorem c2_error_mapping_witness :
    isValidEmail (cleanEmail "user@example.com") = true ∧
    (applyAll initState
      (joinRun "user@example.com" (.resp 500 (some ⟨false, none, none⟩))).sets).error
      = some DEFAULT_ERROR_MESSAGES.unknown := by
  refine ⟨by decide, ?_⟩
  exact ((c2_error_mapping "user@example.com" initState (by decide)).1 500
    ⟨false, none, none⟩ (by decide) (Or.inl (by decide)) rfl).1

/-- A settled `join` leaves `isJoined` set iff it already was or the
call was a validated success. -/
lemma join_isJoined (st : WaitlistState) (e : String) (r : FetchResult) :
    (stepOp st (.opJoin e r)).isJoined =
      (st.isJoined || (isValidEmail (cleanEmail e) && isSuccessResp r)) := by
  by_cases hv : isValidEmail (cleanEmail e) = true
  · cases r with
    | noResponse => simp [stepOp, opSets, joinRun, hv, isSuccessResp, applyAll, applySet]
    | resp status body =>
      by_cases hst : status = 429
      · subst hst
        have h429 : resOk 429 = false := by decide
        cases body <;>
          simp [stepOp, opSets, joinRun, hv, isSuccessResp, h429, applyAll, applySet]
      · cases body with
        | none => simp [stepOp, opSets, joinRun, hv, hst, isSuccessResp, applyAll, applySet]
        | some b =>
          by_cases hok : (!resOk status || !b.success) = true
          · have hns : (resOk status && b.success) = false := by
              rcases Bool.or_eq_true_iff.mp hok with hf | hf <;> simp_all
            simp [stepOp, opSets, joinRun, hv, hst, hok, isSuccessResp, hns, applyAll, applySet]
          · have hs : (resOk status && b.success) = true := by
              simp only [Bool.or_eq_true, Bool.not_eq_true, not_or] at hok
              simp_all
            simp [stepOp, opSets, joinRun, hv, hst, hok, isSuccessResp, hs, applyAll, applySet]
  · simp only [Bool.not_eq_true] at hv
    simp [stepOp, opSets, joinRun, hv, applyAll, applySet]

/-- A settled `leave` clears `isJoined` exactly on a validated
successful response, and otherwise leaves it unchanged. -/
lemma leave_isJoined (st : WaitlistState) (e : String) (r : FetchResult) :
    (stepOp st (.opLeave e r)).isJoined =
      (st.isJoined && !(isValidEmail (cleanEmail e) && isSuccessResp r)) := by
  by_cases hv : isValidEmail (cleanEmail e) = true
  · cases r with
    | noResponse => simp [stepOp, opSets, leaveRun, hv, isSuccessResp, applyAll, applySet]
    | resp status body =>
      by_cases hst : status = 429
      · subst hst
        have h429 : resOk 429 = false := by decide
        cases body <;>
          simp [stepOp, opSets, leaveRun, hv, isSuccessResp, h429, applyAll, applySet]
      · cases body with
        | none => simp [stepOp, opSets, leaveRun, hv, hst, isSuccessResp, applyAll, applySet]
        | some b =>
          by_cases hok : (!resOk status || !b.success) = true
          · have hns : (resOk status && b.success) = false := by
              rcases Bool.or_eq_true_iff.mp hok with hf | hf <;> simp_all
            simp [stepOp, opSets, leaveRun, hv, hst, hok, isSuccessResp, hns, applyAll, applySet]
          · have hs : (resOk status && b.success) = true := by
              simp only [Bool.or_eq_true, Bool.not_eq_true, not_or] at hok
              simp_all
            simp [stepOp, opSets, leaveRun, hv, hst, hok, isSuccessResp, hs, applyAll, applySet]
  · simp only [Bool.not_eq_true] at hv
    simp [stepOp, opSets, leaveRun, hv, applyAll, applySet]

/-- Resetting always clears `isJoined`. -/
lemma reset_isJoined (st : WaitlistState) : (stepOp st .opReset).isJoined = false := by
  simp [stepOp, opSets, resetSets, applyAll, applySet]

/-- Every single settled operation respects the amended flip condition. -/
lemma flipAmended_step (st : WaitlistState) (o : Op) :
    flipOkAmended o st (stepOp st o) := by
  cases o with
  | opJoin e r =>
    constructor
    · rintro ⟨h1, h2⟩
      rw [join_isJoined, h1, Bool.false_or, Bool.and_eq_true] at h2
      exact ⟨e, r, rfl, h2.2⟩
    · rintro ⟨h1, h2⟩
      rw [join_isJoined, h1, Bool.true_or] at h2
      cases h2
  | opLeave e r =>
    constructor
    · rintro ⟨h1, h2⟩
      rw [leave_isJoined, h1, Bool.false_and] at h2
      cases h2
    · rintro ⟨h1, h2⟩
      rw [leave_isJoined, h1, Bool.true_and, Bool.not_eq_false', Bool.and_eq_true] at h2
      exact Or.inl ⟨e, r, rfl, h2.2⟩
  | opReset =>
    constructor
    · rintro ⟨h1, h2⟩
      rw [reset_isJoined] at h2
      cases h2
    · intro h
      exact Or.inr rfl

/-- The amended flip condition holds along every operation sequence
from every state. -/
lemma flipsOk_amended (ops : List Op) : ∀ st, FlipsOk flipOkAmended st ops := by
  induction ops with
  | nil => intro st; trivial
  | cons o rest ih => intro st; exact ⟨flipAmended_step st o, ih _⟩

/-- From a settled state, one operation keeps the two in-flight flags
mutually exclusive at every micro-state and settles with both clear. -/
lemma op_notBoth (st : WaitlistState) (o : Op)
    (hj : st.isJoining = false) (hl : st.isLeaving = false) :
    (statesFrom st (opSets o)).all notBoth = true ∧
    (stepOp st o).isJoining = false ∧ (stepOp st o).isLeaving = false := by
  cases o with
  | opJoin e r =>
    by_cases hv : isValidEmail (cleanEmail e) = true
    · cases r with
      | noResponse =>
        simp [opSets, joinRun, hv, statesFrom, stepOp, applyAll, applySet, notBoth, hj, hl]
      | resp status body =>
        by_cases hst : status = 429
        · simp [opSets, joinRun, hv, hst, statesFrom, stepOp, applyAll, applySet, notBoth,
            hj, hl]
        · cases body with
          | none =>
            simp [opSets, joinRun, hv, hst, statesFrom, stepOp, applyAll, applySet, notBoth,
              hj, hl]
          | some b =>
            by_cases hok : (!resOk status || !b.success) = true
            · simp [opSets, joinRun, hv, hst, hok, statesFrom, stepOp, applyAll, applySet,
                notBoth, hj, hl]
            · simp [opSets, joinRun, hv, hst, hok, statesFrom, stepOp, applyAll, applySet,
                notBoth, hj, hl]
    · simp only [Bool.not_eq_true] at hv
      simp [opSets, joinRun, hv, statesFrom, stepOp, applyAll, applySet, notBoth, hj, hl]
  | opLeave e r =>
    by_cases hv : isValidEmail (cleanEmail e) = true
    · cases r with
      | noResponse =>
        simp [opSets, leaveRun, hv, statesFrom, stepOp, applyAll, applySet, notBoth, hj, hl]
      | resp status body =>
        by_cases hst : status = 429
        · simp [opSets, leaveRun, hv, hst, statesFrom, stepOp, applyAll, applySet, notBoth,
            hj, hl]
        · cases body with
          | none =>
            simp [opSets, leaveRun, hv, hst, statesFrom, stepOp, applyAll, applySet, notBoth,
              hj, hl]
          | some b =>
            by_cases hok : (!resOk status || !b.success) = true
            · simp [opSets, leaveRun, hv, hst, hok, statesFrom, stepOp, applyAll, applySet,
                notBoth, hj, hl]
            · simp [opSets, leaveRun, hv, hst, hok, statesFrom, stepOp, applyAll, applySet,
                notBoth, hj, hl]
    · simp only [Bool.not_eq_true] at hv
      simp [opSets, leaveRun, hv, statesFrom, stepOp, applyAll, applySet, notBoth, hj, hl]
  | opReset =>
    simp [opSets, resetSets, statesFrom, stepOp, applyAll, applySet, notBoth, hj, hl]

/-- The mutual-exclusion invariant holds at every micro-state of every
operation sequence from a settled state. -/
lemma trace_notBoth (ops : List Op) : ∀ st, st.isJoining = false → st.isLeaving = false →
    (traceStates st ops).all notBoth = true := by
  induction ops with
  | nil =>
    intro st hj hl
    simp [traceStates, notBoth, hj]
  | cons o rest ih =>
    intro st hj hl
    have h := op_notBoth st o hj hl
    rw [traceStates, List.all_append, Bool.and_eq_true]
    exact ⟨h.1, ih _ h.2.1 h.2.2⟩

/-- C1 counterexample: the claim is false as stated, because `reset`
also clears `isJoined`: after a successful join followed by a reset,
`isJoined` changes from true to false although the step is neither a
leave nor carries a successful leave response. -/
theorem c1_counterexample :
    ¬ (∀ ops : List Op,
        (traceStates initState ops).all notBoth = true ∧
        FlipsOk flipOkStated initState ops) := by
  intro hclaim
  have h := (hclaim [.opJoin "user@example.com" (.resp 200 (some ⟨true, some "ok", none⟩)),
    .opReset]).2
  simp only [FlipsOk] at h
  obtain ⟨-, h2, -⟩ := h
  simp only [flipOkStated] at h2
  obtain ⟨e, r, heq, -⟩ := h2.2 ⟨by decide, by decide⟩
  cases heq

/-- C1 (amended): along every sequence of settled `join`, `leave`, and
`reset` operations from the initial state, `isJoining` and `isLeaving`
are never both true (micro-states inside each operation included), and
`isJoined` changes to true only by a join with a successful response
and back to false only by a leave with a successful response or by a
`reset`. -/
theorem c1_invariant (ops : List Op) :
    (traceStates initState ops).all notBoth = true ∧
    FlipsOk flipOkAmended initState ops :=
  ⟨trace_notBoth ops initState rfl rfl, flipsOk_amended ops initState⟩

/-- The function `takeWhile` passes over a front segment that wholly satisfies the
predicate. -/
lemma takeWhile_all_append (p : Char → Bool) (l r : List Char) (h : l.all p = true) :
    (l ++ r).takeWhile p = l ++ r.takeWhile p := by
  induction l with
  | nil => simp
  | cons a as ih =>
    rw [List.all_cons, Bool.and_eq_true] at h
    simp [List.takeWhile_cons, h.1, ih h.2]

/-- The function `takeWhile` keeps a list that wholly satisfies the predicate. -/
lemma takeWhile_all (p : Char → Bool) (l : List Char) (h : l.all p = true) :
    l.takeWhile p = l := by
  have := takeWhile_all_append p l [] h
  simpa using this

/-- The trailing digit run of a digit list appended to a prefix with no
trailing digits is that digit list. -/
lemma trailingDigits_append (pre l : List Char)
    (hd : l.all Char.isDigit = true) (hp : pre.reverse.takeWhile Char.isDigit = []) :
    trailingDigits (pre ++ l) = l := by
  unfold trailingDigits
  rw [List.reverse_append, takeWhile_all_append _ _ _ (by rwa [List.all_reverse]), hp]
  simp

/-- The part before the trailing digit run, when the trailing run is
the appended digit list, is the prefix. -/
lemma beforeTrailing_append (pre l : List Char)
    (htd : trailingDigits (pre ++ l) = l) :
    beforeTrailing (pre ++ l) = pre := by
  unfold beforeTrailing
  rw [htd, List.length_append, Nat.add_sub_cancel, List.take_left]

/-- C10: for every nonempty digit string `N`, `extractNumericId` sends
both `gid://shopify/ProductVariant/N` and the bare `N` to `N`, the
count-cache key agrees for the two forms, and `fetchCount` and
`refetch` behave identically on the two forms (same reads, writes and
deletes of the cache). -/
theorem c10_id_normalization (N sd : String) (d : Int) (st : CountState)
    (cache : Cache) (now : Int) (r : CountOutcome)
    (hN : N ≠ "") (hdig : N.data.all Char.isDigit = true) :
    extractNumericId ("gid://shopify/ProductVariant/" ++ N) = N ∧
    extractNumericId N = N ∧
    countCacheKey sd ("gid://shopify/ProductVariant/" ++ N) = countCacheKey sd N ∧
    fetchCount ("gid://shopify/ProductVariant/" ++ N) sd d st cache now r
      = fetchCount N sd d st cache now r ∧
    refetch ("gid://shopify/ProductVariant/" ++ N) sd d st cache now r
      = refetch N sd d st cache now r := by
  obtain ⟨l⟩ := N
  have hl : l ≠ [] := by
    intro h
    exact hN (by rw [h])
  have hdata : ("gid://shopify/ProductVariant/" ++ String.mk l).data
      = "gid://shopify/ProductVariant/".data ++ l := String.data_append _ _
  have hne : ("gid://shopify/ProductVariant/" ++ String.mk l) ≠ "" := by
    intro h
    have h2 := congrArg String.data h
    rw [hdata] at h2
    exact hl (List.append_eq_nil.mp h2).2
  have htd : trailingDigits ("gid://shopify/ProductVariant/".data ++ l) = l :=
    trailingDigits_append _ _ hdig (by decide)
  have hbt : beforeTrailing ("gid://shopify/ProductVariant/".data ++ l)
      = "gid://shopify/ProductVariant/".data :=
    beforeTrailing_append _ _ htd
  have h1 : extractNumericId ("gid://shopify/ProductVariant/" ++ String.mk l)
      = String.mk l := by
    unfold extractNumericId
    rw [if_neg hne, hdata, htd, hbt, if_pos ⟨hl, by decide⟩]
  have h2 : extractNumericId (String.mk l) = String.mk l := by
    have hmk : (String.mk l) ≠ "" := fun h => hl (congrArg String.data h)
    have htds : trailingDigits l = l := by
      unfold trailingDigits
      rw [takeWhile_all _ _ (by rwa [List.all_reverse]), List.reverse_reverse]
    unfold extractNumericId
    rw [if_neg hmk]
    rw [if_neg]
    rintro ⟨-, hlast⟩
    rw [show beforeTrailing (String.mk l).data = [] by
      unfold beforeTrailing
      rw [show trailingDigits (String.mk l).data = l from htds]
      simp] at hlast
    cases hlast
  have hkey : countCacheKey sd ("gid://shopify/ProductVariant/" ++ String.mk l)
      = countCacheKey sd (String.mk l) := by
    unfold countCacheKey
    rw [h1, h2]
  refine ⟨h1, h2, hkey, ?_, ?_⟩
  · simp only [fetchCount, hkey]
  · simp only [refetch, fetchCount, hkey]

/-- C10 witness at `N = "123"`. -/
theorem c10_id_normalization_witness :
    ("123" : String) ≠ "" ∧ ("123" : String).data.all Char.isDigit = true ∧
    extractNumericId ("gid://shopify/ProductVariant/" ++ "123") = "123" := by
  refine ⟨by decide, by decide, ?_⟩
  exact (c10_id_normalization "123" "shop.example" 60000 ⟨0, false, none⟩ [] 0
    (.fetchThrew ⟨true, "boom"⟩) (by decide) (by decide)).1

/-- Setting a key makes it immediately readable. -/
lemma cacheGet_set_self (c : Cache) (k : String) (v : CacheEntry) :
    cacheGet (cacheSet c k v) k = some v := by
  simp [cacheGet, cacheSet, List.find?]

/-- Deleting a key removes every binding of it. -/
lemma cacheGet_del_self (c : Cache) (k : String) :
    cacheGet (cacheDel c k) k = none := by
  induction c with
  | nil => rfl
  | cons p rest ih =>
    by_cases h : p.1 = k
    · rw [show cacheDel (p :: rest) k = cacheDel rest k from by
        simp [cacheDel, List.filter_cons, h]]
      exact ih
    · rw [show cacheDel (p :: rest) k = p :: cacheDel rest k from by
        simp [cacheDel, List.filter_cons, h]]
      rw [show cacheGet (p :: cacheDel rest k) k = cacheGet (cacheDel rest k) k from by
        simp [cacheGet, List.find?_cons, h]]
      exact ih

/-- Once a `fetchCount` call reaches its network phase it has issued a
request, whatever the outcome. -/
lemma fetchCountNet_requested (k : String) (st : CountState) (c : Cache) (now : Int)
    (r : CountOutcome) : (fetchCountNet k st c now r).requested = true := by
  cases r with
  | fetchThrew e => rfl
  | resp s body =>
    by_cases hok : resOk s = true
    · cases body <;> simp [fetchCountNet, hok]
    · have hf : resOk s = false := by simp_all
      by_cases h4 : s = 404 <;>
        simp [fetchCountNet, hf, h4, show resOk 404 = false from by decide]

/-- A `fetchCount` call finding no cache entry for its key issues a
request. -/
lemma fetchCount_requested_of_miss (v sd : String) (d : Int) (st : CountState)
    (cache : Cache) (now : Int) (r : CountOutcome)
    (hmiss : cacheGet cache (countCacheKey sd v) = none) :
    (fetchCount v sd d st cache now r).requested = true := by
  simp only [fetchCount, hmiss]
  exact fetchCountNet_requested _ _ _ _ _

/-- C4: on a cache miss, an HTTP 404 yields count 0, writes
`{count: 0, timestamp: now}` into the cache, and surfaces no error;
any other non-OK status sets the fetch-failure error string, sets
count 0 and leaves the cache unchanged, so a later fetch for the key
still issues a network request. -/
theorem c4_fetch_count_errors (v sd : String) (d : Int) (st st2 : CountState)
    (cache : Cache) (now now2 : Int) (body : Except JsError CountBody) (r2 : CountOutcome)
    (hmiss : cacheGet cache (countCacheKey sd v) = none) :
    ((fetchCount v sd d st cache now (.resp 404 body)).state.count = 0 ∧
     (fetchCount v sd d st cache now (.resp 404 body)).state.error = none ∧
     (fetchCount v sd d st cache now (.resp 404 body)).cache
       = cacheSet cache (countCacheKey sd v) ⟨0, now⟩ ∧
     cacheGet (fetchCount v sd d st cache now (.resp 404 body)).cache (countCacheKey sd v)
       = some ⟨0, now⟩) ∧
    (∀ s : Nat, resOk s = false → s ≠ 404 →
      (fetchCount v sd d st cache now (.resp s body)).state.error
        = some "Failed to fetch waitlist count" ∧
      (fetchCount v sd d st cache now (.resp s body)).state.count = 0 ∧
      (fetchCount v sd d st cache now (.resp s body)).cache = cache ∧
      (fetchCount v sd d st2 (fetchCount v sd d st cache now (.resp s body)).cache
        now2 r2).requested = true) := by
  have h404 : resOk 404 = false := by decide
  constructor
  · refine ⟨?_, ?_, ?_, ?_⟩ <;>
      simp [fetchCount, fetchCountNet, hmiss, h404, cacheGet_set_self]
  · intro s hs hs4
    have hcache : (fetchCount v sd d st cache now (.resp s body)).cache = cache := by
      simp [fetchCount, fetchCountNet, hmiss, hs, hs4]
    refine ⟨?_, ?_, hcache, ?_⟩
    · simp [fetchCount, fetchCountNet, hmiss, hs, hs4]
    · simp [fetchCount, fetchCountNet, hmiss, hs, hs4]
    · rw [hcache]
      exact fetchCount_requested_of_miss v sd d st2 cache now2 r2 hmiss

/-- C4 witness: a 404 then a 500 at concrete inputs. -/
theorem c4_fetch_count_errors_witness :
    cacheGet [] (countCacheKey "shop.example" "123") = none ∧
    (fetchCount "123" "shop.example" 60000 ⟨0, false, none⟩ [] 1000
      (.resp 404 (.error ⟨true, "x"⟩))).state.error = none ∧
    (fetchCount "123" "shop.example" 60000 ⟨0, false, none⟩ [] 1000
      (.resp 500 (.error ⟨true, "x"⟩))).state.error
      = some "Failed to fetch waitlist count" := by
  have h := c4_fetch_count_errors "123" "shop.example" 60000 ⟨0, false, none⟩
    ⟨0, false, none⟩ [] 1000 2000 (.error ⟨true, "x"⟩) (.fetchThrew ⟨true, "y"⟩) rfl
  exact ⟨rfl, h.1.2.1, (h.2 500 (by decide) (by decide)).1⟩

/-- C5: a fresh cache entry (age strictly below `cacheDuration`) makes
`fetchCount` return the cached count with no request and no state or
cache change beyond the count; after a miss followed by a successful
fetch at time `now`, a second call within the window issues no request
and returns the fetched count, so the two calls issue exactly one
request; and `refetch` always issues a request. -/
theorem c5_cache_freshness (v sd : String) (d : Int) (st st2 : CountState)
    (cache : Cache) (now now2 : Int) (r r2 : CountOutcome) (s : Nat) (b : CountBody) :
    (∀ e : CacheEntry, cacheGet cache (countCacheKey sd v) = some e →
      now - e.timestamp < d →
      fetchCount v sd d st cache now r
        = ⟨{ st with count := e.count }, cache, false⟩) ∧
    (cacheGet cache (countCacheKey sd v) = none → resOk s = true →
      (fetchCount v sd d st cache now (.resp s (.ok b))).requested = true ∧
      (now2 - now < d →
        (fetchCount v sd d st2 (fetchCount v sd d st cache now (.resp s (.ok b))).cache
          now2 r2).requested = false ∧
        (fetchCount v sd d st2 (fetchCount v sd d st cache now (.resp s (.ok b))).cache
          now2 r2).state.count = b.count)) ∧
    (∀ (st' : CountState) (cache' : Cache) (now' : Int) (r' : CountOutcome),
      (refetch v sd d st' cache' now' r').requested = true) := by
  refine ⟨?_, ?_, ?_⟩
  · intro e he hfresh
    simp [fetchCount, he, hfresh]
  · intro hmiss hok
    have hcache : (fetchCount v sd d st cache now (.resp s (.ok b))).cache
        = cacheSet cache (countCacheKey sd v) ⟨b.count, now⟩ := by
      simp [fetchCount, fetchCountNet, hmiss, hok]
    refine ⟨fetchCount_requested_of_miss v sd d st cache now _ hmiss, ?_⟩
    intro hwin
    rw [hcache]
    constructor <;> simp [fetchCount, cacheGet_set_self, hwin]
  · intro st' cache' now' r'
    apply fetchCount_requested_of_miss
    exact cacheGet_del_self cache' (countCacheKey sd v)

/-- C5 witness: a fresh hit, a miss-then-hit pair, and a refetch, at
concrete inputs. -/
theorem c5_cache_freshness_witness :
    cacheGet [("shop.example:123", (⟨7, 1000⟩ : CacheEntry))] "shop.example:123"
      = some ⟨7, 1000⟩ ∧
    (fetchCount "123" "shop.example" 60000 ⟨0, false, none⟩
      [("shop.example:123", ⟨7, 1000⟩)] 1500 (.fetchThrew ⟨true, "y"⟩)).requested = false ∧
    (fetchCount "123" "shop.example" 60000 ⟨0, false, none⟩ [] 1000
      (.resp 200 (.ok ⟨"123", 5⟩))).requested = true ∧
    (refetch "123" "shop.example" 60000 ⟨0, false, none⟩
      [("shop.example:123", ⟨7, 1000⟩)] 1500 (.fetchThrew ⟨true, "y"⟩)).requested = true := by
  have h1 := c5_cache_freshness "123" "shop.example" 60000 ⟨0, false, none⟩ ⟨0, false, none⟩
    [("shop.example:123", ⟨7, 1000⟩)] 1500 2000 (.fetchThrew ⟨true, "y"⟩)
    (.fetchThrew ⟨true, "y"⟩) 200 ⟨"123", 5⟩
  have h2 := c5_cache_freshness "123" "shop.example" 60000 ⟨0, false, none⟩ ⟨0, false, none⟩
    [] 1000 2000 (.resp 200 (.ok ⟨"123", 5⟩)) (.fetchThrew ⟨true, "y"⟩) 200 ⟨"123", 5⟩
  refine ⟨by decide, ?_, ?_, ?_⟩
  · rw [h1.1 ⟨7, 1000⟩ (by decide) (by decide)]
  · exact ((h2.2.1 (by decide) (by decide)).1)
  · exact h1.2.2 ⟨0, false, none⟩ [("shop.example:123", ⟨7, 1000⟩)] 1500
      (.fetchThrew ⟨true, "y"⟩)

end Restock
